import Mathlib

/-!
Shallow embedding of the CHIP-8 launcher (`src/bin/main.rs` of the
`rust-chip8` crate): the key map, the run mode, the curses input handler
`handle_input`, the driving loop `chip_loop`, and `main`.  The core
library `libchip8` (Emulator, fetch, exec, tick, key_pressed,
key_released) is not part of this repository's sources; the loop is
therefore parametrised over an abstract core whose interface is modelled
from the spec, and the loop's own control flow is translated literally
from the source.
-/

namespace key_map

/-- The mapping string `"x123qweasdzc4rfv"`: the i-th character is the
contemporary-keyboard key bound to CHIP-8 key i. -/
def MAPPING : List Char :=
  ['x', '1', '2', '3', 'q', 'w', 'e', 'a', 's', 'd', 'z', 'c', '4', 'r', 'f', 'v']

/-- Rust `map_base16_to_key`: `MAPPING.chars().nth(idx)`. -/
def map_base16_to_key (idx : Nat) : Option Char :=
  MAPPING.get? idx

/-- Rust `map_key_to_base16`: the index of the first character of `MAPPING`
equal to `k`, via `char_indices().find(...)`. -/
def map_key_to_base16 (k : Char) : Option Nat :=
  (MAPPING.enum.find? (fun ic => ic.2 == k)).map (fun ic => ic.1)

end key_map

namespace mode

/-- Enum `RunMode`: stepwise (pause each iteration) versus normal (free-running). -/
inductive RunMode
  | Stepwise
  | Normal
deriving DecidableEq, Repr

/-- Rust `impl From<Option<&String>> for RunMode` (named `fromOpt` because `from`
is a Lean keyword): the mere presence of the argument selects Stepwise. -/
def RunMode.fromOpt : Option String → RunMode
  | none => RunMode.Normal
  | some _ => RunMode.Stepwise

end mode

/-- A `std::time::Duration` modelled as a count of nanoseconds;
`Duration::new(secs, nanos)`. -/
def durationNew (secs nanos : Nat) : Nat :=
  secs * 1000000000 + nanos

/-- Rust `Duration::checked_div`: `None` exactly when the divisor is zero. -/
def durationCheckedDiv (d n : Nat) : Option Nat :=
  if n = 0 then none else some (d / n)

/-- The `Nat` analogue of `Duration::checked_sub`: `None` exactly when the
subtrahend exceeds the minuend. -/
def durationCheckedSub (a b : Nat) : Option Nat :=
  if b ≤ a then some (a - b) else none

/-- Constant `frame_target_duration` computed in `chip_loop`:
`Duration::new(1, 0).checked_div(120)`. -/
def frame_target_duration : Option Nat :=
  durationCheckedDiv (durationNew 1 0) 120

/-- Constant `min_press_durarion` computed in `chip_loop` (sic, the source's
spelling): `Duration::new(1, 0).checked_div(20)`. -/
def min_press_durarion : Option Nat :=
  durationCheckedDiv (durationNew 1 0) 20

/-- Observable actions of `main`, in order. -/
inductive MainAct
  | printLn (s : String)
  | newEmulator
  | emulation (fname : String) (rm : mode.RunMode)
deriving DecidableEq, Repr

namespace launcher

/-- Rust `main`: with a ROM path at `args[1]` it constructs the emulator and runs
the emulation in the mode selected by `args[2]`; otherwise it prints the
usage message. -/
def main (args : List String) : List MainAct :=
  match args.get? 1 with
  | some fname =>
      [MainAct.newEmulator, MainAct.emulation fname (mode.RunMode.fromOpt (args.get? 2))]
  | none => [MainAct.printLn "chip-8 rom file name required"]

end launcher

/-- The four rows of key numbers passed to `render_kbd_line` by
`render_keyboard`. -/
def kbd_rows : List (List Nat) :=
  [[1, 2, 3, 0xC], [4, 5, 6, 0xD], [7, 8, 9, 0xE], [0xA, 0, 0xB, 0xF]]

/-- Modelled from the spec: the fault taxonomy of the `libchip8` core,
whose sources are not part of this repository (section 7 of the spec). -/
inductive Fault
  | AddressOutOfRange
  | RomTooLarge
  | StackOverflow
  | StackUnderflow
  | UnknownOpcode (raw : Nat)
deriving DecidableEq, Repr

/-- Modelled from the spec: the interface of the `libchip8` Emulator that
`chip_loop` and `handle_input` drive.  The core's sources are not in this
repository, so it is kept abstract: `σ` is the emulator state, `ι` the
(opaque to the loop) decoded-instruction type.  `fetch` returns the next
instruction if any, `exec` surfaces faults as a typed result, `tick`
returns the (delay, sound) pair, and `key_pressed`/`key_released` are the
sole input-injection points. -/
structure Core (σ ι : Type) where
  fetch : σ → Option ι × σ
  exec : σ → ι → Except Fault Unit × σ
  tick : σ → (Nat × Nat) × σ
  key_pressed : σ → Option Nat → Nat → σ
  key_released : σ → σ

namespace render

/-- An `easycurses` input event as seen by `handle_input`: a character, or
any other event (matched by the `_ => ()` arm of the source). -/
inductive Input
  | character (c : Char)
  | other
deriving DecidableEq, Repr

/-- A call made by `handle_input` into the core's keyboard interface. -/
inductive KbdCall
  | pressed (old : Option Nat) (k : Nat)
  | released
deriving DecidableEq, Repr

/-- Rust `EasyCursesRenderer::handle_input`, translated from the source.  The
real-time quantity `last_input.elapsed()` at the moment of the call is
passed in as `elapsed` (nanoseconds); `min_press` is the debounce window
(nanoseconds).  Returns the `result` boolean of the source (false exactly
on the quit character), the emulator state after any keyboard call, the
new tracked key `oldk`, and the list of keyboard calls made. -/
def handle_input {σ ι : Type} (C : Core σ ι) (ch : σ) (ip : Option Input)
    (elapsed min_press : Nat) (oldk : Option Nat) :
    Bool × σ × Option Nat × List KbdCall :=
  match ip with
  | some i =>
    match i with
    | Input.character key =>
      if key = ',' then (false, ch, oldk, [])
      else
        match key_map.map_key_to_base16 key with
        | some newk =>
            (true, C.key_pressed ch oldk newk, some newk, [KbdCall.pressed oldk newk])
        | none => (true, ch, oldk, [])
    | Input.other => (true, ch, oldk, [])
  | none =>
    match durationCheckedSub min_press elapsed with
    | none => (true, C.key_released ch, none, [KbdCall.released])
    | some _ => (true, ch, oldk, [])

deriving instance DecidableEq for Except

/-- Observable events of one run of `chip_loop`, in order: the (delay,
sound) pair rendered from `tick`, keyboard calls made by `handle_input`,
`exec` with the result it reported, `fetch` with the instruction it
returned, and a status line rendered by `render_status` inside the loop. -/
inductive Ev (ι : Type)
  | tickEv (dt st : Nat)
  | kbd (c : KbdCall)
  | execEv (i : ι) (r : Except Fault Unit)
  | fetchEv (r : Option ι)
  | statusEv (s : String)
deriving DecidableEq, Repr

/-- The per-iteration real-time inputs the loop obtains from curses and the
clock: the polled input event and `last_input.elapsed()` in nanoseconds. -/
structure LoopIn where
  ip : Option Input
  elapsed : Nat
deriving DecidableEq, Repr

/-- One `loop { ... }` of `chip_loop`, fuel-indexed.  Each iteration
renders CPU/display/keyboard (pure reads, not traced), renders the `tick`
pair, runs `handle_input` and breaks if it returned false, then either
executes the pending instruction and fetches the next one — the result of
`exec` is discarded, exactly as `ch.exec(instr);` in the source — or, when
no instruction is pending, renders the status line and breaks. -/
def chip_loop_aux {σ ι : Type} (C : Core σ ι) (min_press : Nat) :
    Nat → List LoopIn → σ → Option ι → Option Nat → List (Ev ι)
  | 0, _, _, _, _ => []
  | Nat.succ fuel, ins, ch, next_instr, oldk =>
    let inp := ins.headD ⟨none, 0⟩
    let td := C.tick ch
    let hi := handle_input C td.2 inp.ip inp.elapsed min_press oldk
    let pre := Ev.tickEv td.1.1 td.1.2 :: hi.2.2.2.map Ev.kbd
    if hi.1 = false then
      pre
    else
      match next_instr with
      | some instr =>
        let er := C.exec hi.2.1 instr
        let fr := C.fetch er.2
        pre ++ Ev.execEv instr er.1 :: Ev.fetchEv fr.1 ::
          chip_loop_aux C min_press fuel ins.tail fr.2 fr.1 hi.2.2.1
      | none => pre ++ [Ev.statusEv "No more instructions to excute"]

/-- Rust `chip_loop`: fetches the initial `next_instr`, computes the debounce
window `min_press_durarion` = 1 s / 20 (the `.expect` cannot fire since the
divisor is nonzero, modelled by `Option.getD`), and enters the loop with no
tracked key. -/
def chip_loop {σ ι : Type} (C : Core σ ι) (fuel : Nat) (ins : List LoopIn)
    (ch : σ) : List (Ev ι) :=
  let fr := C.fetch ch
  Ev.fetchEv fr.1 :: chip_loop_aux C (min_press_durarion.getD 0) fuel ins fr.2 fr.1 none

/-- Is this event an `exec` call? -/
def isExecEv {ι : Type} : Ev ι → Bool
  | Ev.execEv _ _ => true
  | _ => false

/-- Is this event an `exec` call that reported a fault? -/
def isFaultExecEv {ι : Type} : Ev ι → Bool
  | Ev.execEv _ (Except.error _) => true
  | _ => false

/-- Is this event a `fetch` call? -/
def isFetchEv {ι : Type} : Ev ι → Bool
  | Ev.fetchEv _ => true
  | _ => false

/-- Is this event a rendered status line? -/
def isStatusEv {ι : Type} : Ev ι → Bool
  | Ev.statusEv _ => true
  | _ => false

/-- Checks that every `exec` event in a trace runs an instruction that an
earlier `fetch` event (or one of the instructions in `fetched`) returned. -/
def execsCovered {ι : Type} [DecidableEq ι] (fetched : List ι) :
    List (Ev ι) → Bool
  | [] => true
  | Ev.fetchEv (some i) :: rest => execsCovered (i :: fetched) rest
  | Ev.execEv i _ :: rest =>
    if i ∈ fetched then execsCovered fetched rest else false
  | _ :: rest => execsCovered fetched rest

/-- Checks that every `exec` event in a trace — whatever result it
reported, fault included — is immediately followed by a `fetch` event:
the loop never branches on the result of `exec`. -/
def execThenFetch {ι : Type} : List (Ev ι) → Bool
  | [] => true
  | Ev.execEv _ _ :: rest =>
    (match rest with
     | Ev.fetchEv _ :: _ => execThenFetch rest
     | _ => false)
  | _ :: rest => execThenFetch rest

end render

/-- A concrete instantiation of the modelled core used to evaluate the
loop on explicit inputs: the state counts fetches, every fetch yields an
instruction, and `exec` always succeeds. -/
def demoCore : Core Nat Nat where
  fetch := fun s => (some s, s + 1)
  exec := fun s _ => (Except.ok (), s)
  tick := fun s => ((0, 0), s)
  key_pressed := fun s _ _ => s
  key_released := fun s => s

/-- A concrete instantiation of the modelled core on which every `exec`
reports an `UnknownOpcode` fault while `fetch` keeps yielding
instructions. -/
def faultingCore : Core Nat Nat where
  fetch := fun s => (some s, s + 1)
  exec := fun s i => (Except.error (Fault.UnknownOpcode i), s)
  tick := fun s => ((0, 0), s)
  key_pressed := fun s _ _ => s
  key_released := fun s => s

/-- C4: the run mode depends only on the presence of the second
command-line argument, not its content: `RunMode::from(None)` is `Normal`
and `RunMode::from(Some(s))` is `Stepwise` for every string `s`. -/
theorem runMode_presence_only :
    mode.RunMode.fromOpt none = mode.RunMode.Normal ∧
    ∀ s : String, mode.RunMode.fromOpt (some s) = mode.RunMode.Stepwise :=
  ⟨rfl, fun _ => rfl⟩

/-- Witness for `runMode_presence_only` at the concrete argument "-s". -/
theorem runMode_presence_only_witness :
    mode.RunMode.fromOpt (some "-s") = mode.RunMode.Stepwise :=
  runMode_presence_only.2 "-s"

/-- C5: the keyboard debounce window `min_press_durarion` is exactly one
second divided by 20, i.e. 50 ms (50000000 ns). -/
theorem debounce_window_is_50ms :
    min_press_durarion = durationCheckedDiv (durationNew 1 0) 20 ∧
    min_press_durarion = some 50000000 ∧
    durationNew 0 50000000 = 50 * 1000000 := by
  refine ⟨rfl, ?_, by decide⟩
  decide

/-- C6: with no ROM file path at `args[1]`, `main` prints the usage
message and performs nothing else: no emulator is constructed and no
emulation is started. -/
theorem missing_rom_prints_usage (args : List String)
    (h : args.get? 1 = none) :
    launcher.main args = [MainAct.printLn "chip-8 rom file name required"] ∧
    MainAct.newEmulator ∉ launcher.main args ∧
    ∀ f rm, MainAct.emulation f rm ∉ launcher.main args := by
  have hm : launcher.main args = [MainAct.printLn "chip-8 rom file name required"] := by
    unfold launcher.main
    rw [h]
  refine ⟨hm, ?_, ?_⟩
  · rw [hm]; simp
  · intro f rm; rw [hm]; simp

/-- Witness for `missing_rom_prints_usage`: invoked with only the program
name, `main` prints the usage message. -/
theorem missing_rom_prints_usage_witness :
    launcher.main ["rust-chip8"] = [MainAct.printLn "chip-8 rom file name required"] :=
  (missing_rom_prints_usage ["rust-chip8"] rfl).1

/-- C8: the two key-map functions are mutually inverse on the 16 valid key
indices — every index below 16 maps to a character that maps back to the
same index — and the 16 characters of the mapping are pairwise distinct. -/
theorem key_maps_mutually_inverse :
    (∀ idx : Nat, idx < 16 →
      (key_map.map_base16_to_key idx).isSome = true ∧
      (key_map.map_base16_to_key idx).bind key_map.map_key_to_base16 = some idx) ∧
    key_map.MAPPING.Nodup := by
  refine ⟨?_, ?_⟩ <;> decide

/-- Witness for `key_maps_mutually_inverse` at index 5 (character 'w'). -/
theorem key_maps_mutually_inverse_witness :
    (key_map.map_base16_to_key 5).bind key_map.map_key_to_base16 = some 5 :=
  (key_maps_mutually_inverse.1 5 (by decide)).2

/-- C10: `map_base16_to_key` is total — `Some` exactly on indices below
16, `None` from 16 on — and every key number that `render_keyboard` hands
to `render_kbd_line` is below 16, so the `unwrap` of the lookup there
cannot panic. -/
theorem map_base16_total_kbd_safe :
    (∀ idx : Nat, (key_map.map_base16_to_key idx).isSome = true ↔ idx < 16) ∧
    ∀ row ∈ kbd_rows, ∀ n ∈ row, (key_map.map_base16_to_key n).isSome = true := by
  constructor
  · intro idx
    have hlen : key_map.MAPPING.length = 16 := rfl
    simp only [key_map.map_base16_to_key]
    rw [Option.isSome_iff_ne_none, ne_eq, List.get?_eq_none, hlen]
    exact Nat.not_le
  · decide

/-- Witness for `map_base16_total_kbd_safe` at index 3. -/
theorem map_base16_total_kbd_safe_witness :
    (key_map.map_base16_to_key 3).isSome = true :=
  (map_base16_total_kbd_safe.1 3).mpr (by decide)

/-- C2: for every input character that maps to a CHIP-8 key index `k`,
`handle_input` calls `key_pressed` with the previously tracked key as
first argument and `k` as second, and afterwards `k` is the newly tracked
key. -/
theorem handle_input_presses_mapped_key {σ ι : Type} (C : Core σ ι) (ch : σ)
    (elapsed min_press : Nat) (oldk : Option Nat) (c : Char) (k : Nat)
    (h : key_map.map_key_to_base16 c = some k) :
    render.handle_input C ch (some (render.Input.character c)) elapsed min_press oldk =
      (true, C.key_pressed ch oldk k, some k, [render.KbdCall.pressed oldk k]) := by
  have hc : ¬ (c = ',') := by
    intro e
    rw [e] at h
    rw [(by decide : key_map.map_key_to_base16 ',' = (none : Option Nat))] at h
    exact Option.noConfusion h
  simp only [render.handle_input, if_neg hc, h]

/-- Witness for `handle_input_presses_mapped_key`: the character 'q' maps
to key 4, which gets pressed and tracked. -/
theorem handle_input_presses_mapped_key_witness :
    render.handle_input demoCore 0 (some (render.Input.character 'q')) 0 50000000 (some 2) =
      (true, 0, some 4, [render.KbdCall.pressed (some 2) 4]) :=
  handle_input_presses_mapped_key demoCore 0 0 50000000 (some 2) 'q' 4 (by decide)

/-- C3 (amended): when `handle_input` polls no input event and the elapsed
time since the last input event STRICTLY exceeds the debounce window, it
calls `key_released` and the tracked key becomes `None`.  (At elapsed time
exactly equal to the window, `checked_sub` returns `Some(0)` and nothing
is released — see the counterexample.) -/
theorem handle_input_debounce_release {σ ι : Type} (C : Core σ ι) (ch : σ)
    (elapsed min_press : Nat) (oldk : Option Nat) (h : min_press < elapsed) :
    render.handle_input C ch none elapsed min_press oldk =
      (true, C.key_released ch, none, [render.KbdCall.released]) := by
  simp only [render.handle_input, durationCheckedSub,
    if_neg (by omega : ¬ elapsed ≤ min_press)]

/-- Witness for `handle_input_debounce_release`: one nanosecond past the
window the tracked key 5 is released and forgotten. -/
theorem handle_input_debounce_release_witness :
    render.handle_input demoCore 0 none 50000001 50000000 (some 5) =
      (true, 0, none, [render.KbdCall.released]) :=
  handle_input_debounce_release demoCore 0 50000001 50000000 (some 5) (by decide)

/-- C3 counterexample: with no input event and elapsed time exactly equal
to the 50 ms window — so "at least the minimum press duration" holds —
`handle_input` makes no keyboard call and the tracked key stays `Some 5`,
contradicting the claim that `key_released` is called and the tracked key
becomes `None`. -/
theorem handle_input_debounce_boundary_cex :
    min_press_durarion.getD 0 ≤ 50000000 ∧
    render.handle_input demoCore 0 none 50000000 (min_press_durarion.getD 0) (some 5) =
      (true, 0, some 5, []) := by
  refine ⟨by decide, ?_⟩
  decide

namespace render

/-- Is this polled input the quit keypress? -/
def isQuit : Option Input → Bool
  | some (Input.character c) => c = ','
  | _ => false

/-- The `result` boolean of `handle_input` is false exactly on the quit
keypress, whatever the state, timing and tracked key. -/
theorem handle_input_fst {σ ι : Type} (C : Core σ ι) (ch : σ) (ip : Option Input)
    (elapsed min_press : Nat) (oldk : Option Nat) :
    (handle_input C ch ip elapsed min_press oldk).1 = !isQuit ip := by
  match ip with
  | none =>
    simp only [handle_input, isQuit]
    cases durationCheckedSub min_press elapsed <;> rfl
  | some Input.other => rfl
  | some (Input.character c) =>
    by_cases hc : c = ','
    · subst hc; rfl
    · simp only [handle_input, isQuit, if_neg hc, decide_eq_true_eq]
      cases key_map.map_key_to_base16 c <;> simp [hc]

/-- Keyboard-call events are transparent to `execsCovered`. -/
theorem execsCovered_kbd_append {ι : Type} [DecidableEq ι] (f : List ι)
    (cs : List KbdCall) (evs : List (Ev ι)) :
    execsCovered f (cs.map Ev.kbd ++ evs) = execsCovered f evs := by
  induction cs with
  | nil => rfl
  | cons c cs ih => exact ih

/-- A trace of keyboard-call events alone is always covered. -/
theorem execsCovered_kbd_map {ι : Type} [DecidableEq ι] (f : List ι)
    (cs : List KbdCall) :
    execsCovered f (cs.map Ev.kbd) = true := by
  induction cs with
  | nil => rfl
  | cons c cs ih => exact ih

/-- Keyboard-call events are transparent to `execThenFetch`. -/
theorem execThenFetch_kbd_append {ι : Type} (cs : List KbdCall)
    (evs : List (Ev ι)) :
    execThenFetch (cs.map Ev.kbd ++ evs) = execThenFetch evs := by
  induction cs with
  | nil => rfl
  | cons c cs ih => exact ih

end render

namespace render

/-- Every `exec` in a run of the loop body runs an instruction from
`next_instr`, which is always a previously fetched value (tracked in the
accumulator `f`). -/
theorem chip_loop_aux_execsCovered {σ ι : Type} [DecidableEq ι] (C : Core σ ι)
    (min_press : Nat) :
    ∀ (fuel : Nat) (ins : List LoopIn) (ch : σ) (ni : Option ι)
      (oldk : Option Nat) (f : List ι), (∀ i, ni = some i → i ∈ f) →
      execsCovered f (chip_loop_aux C min_press fuel ins ch ni oldk) = true := by
  intro fuel
  induction fuel with
  | zero => intro ins ch ni oldk f hf; rfl
  | succ fuel ih =>
    intro ins ch ni oldk f hf
    simp only [chip_loop_aux]
    split
    · exact execsCovered_kbd_map f _
    · cases ni with
      | some instr =>
        simp only [List.cons_append]
        show execsCovered f (_ ++ Ev.execEv instr _ :: Ev.fetchEv _ :: _) = true
        rw [execsCovered_kbd_append]
        show (if instr ∈ f then execsCovered f (Ev.fetchEv _ :: _) else false) = true
        rw [if_pos (hf instr rfl)]
        cases (C.fetch (C.exec _ instr).2).1 with
        | some j =>
          show execsCovered (j :: f) _ = true
          exact ih _ _ _ _ _ (fun i e => by
            rw [Option.some_inj] at e
            exact e ▸ List.mem_cons_self j f)
        | none =>
          show execsCovered f _ = true
          exact ih _ _ _ _ _ (fun i e => Option.noConfusion e)
      | none =>
        simp only [List.cons_append]
        show execsCovered f (_ ++ [Ev.statusEv _]) = true
        rw [execsCovered_kbd_append]
        rfl

end render

/-- A trace of keyboard-call events alone satisfies `execThenFetch`. -/
theorem render.execThenFetch_kbd_map {ι : Type} (cs : List render.KbdCall) :
    render.execThenFetch (cs.map (render.Ev.kbd (ι := ι))) = true := by
  induction cs with
  | nil => rfl
  | cons c cs ih => exact ih

/-- C7: pressing the quit key ',' makes `handle_input` return false and
the loop break at once: the iteration's trace is just the rendered tick,
with no further `exec` or `fetch` event in the whole run. -/
theorem quit_key_breaks_loop {σ ι : Type} (C : Core σ ι) (min_press fuel e : Nat)
    (rest : List render.LoopIn) (ch : σ) (ni : Option ι) (oldk : Option Nat) :
    (render.handle_input C ch (some (render.Input.character ',')) e min_press oldk).1
        = false ∧
    render.chip_loop_aux C min_press (fuel + 1)
        (⟨some (render.Input.character ','), e⟩ :: rest) ch ni oldk =
      [render.Ev.tickEv (C.tick ch).1.1 (C.tick ch).1.2] :=
  ⟨rfl, rfl⟩

/-- Witness for `quit_key_breaks_loop`: a quit keypress with three units
of fuel and an instruction pending still yields only the tick event. -/
theorem quit_key_breaks_loop_witness :
    render.chip_loop_aux demoCore 50000000 3
        [⟨some (render.Input.character ','), 0⟩] 0 (some 7) none =
      [render.Ev.tickEv 0 0] :=
  (quit_key_breaks_loop demoCore 50000000 2 0 [] 0 (some 7) none).2

/-- C9: when `fetch` returned no instruction, the next loop iteration that
reaches the dispatch point (its polled input is not the quit keypress)
renders the status line "No more instructions to excute" and ends the run;
its trace holds only the tick, the keyboard calls and that status — no
`exec` event.  Moreover every `exec` event of any run of `chip_loop` runs
an instruction previously returned by a `fetch` event of that run. -/
theorem fetch_none_halts_execs_fetched {σ ι : Type} [DecidableEq ι] (C : Core σ ι) :
    (∀ (min_press fuel : Nat) (inp : render.LoopIn) (rest : List render.LoopIn)
        (ch : σ) (oldk : Option Nat), render.isQuit inp.ip = false →
        render.chip_loop_aux C min_press (fuel + 1) (inp :: rest) ch none oldk =
          render.Ev.tickEv (C.tick ch).1.1 (C.tick ch).1.2 ::
            (render.handle_input C (C.tick ch).2 inp.ip inp.elapsed min_press
                oldk).2.2.2.map render.Ev.kbd
              ++ [render.Ev.statusEv "No more instructions to excute"]) ∧
    ∀ (fuel : Nat) (ins : List render.LoopIn) (ch : σ),
      render.execsCovered [] (render.chip_loop C fuel ins ch) = true := by
  constructor
  · intro min_press fuel inp rest ch oldk hq
    have h1 := render.handle_input_fst C (C.tick ch).2 inp.ip inp.elapsed min_press oldk
    rw [hq] at h1
    simp only [render.chip_loop_aux, List.headD_cons, h1, Bool.not_false,
      List.cons_append]
    simp
  · intro fuel ins ch
    show render.execsCovered []
      (render.Ev.fetchEv (C.fetch ch).1 ::
        render.chip_loop_aux C (min_press_durarion.getD 0) fuel ins (C.fetch ch).2
          (C.fetch ch).1 none) = true
    cases (C.fetch ch).1 with
    | some i =>
      show render.execsCovered [i] _ = true
      exact render.chip_loop_aux_execsCovered C _ _ _ _ _ _ _ (fun j e => by
        rw [Option.some_inj] at e
        exact e ▸ List.mem_cons_self i [])
    | none =>
      exact render.chip_loop_aux_execsCovered C _ _ _ _ _ _ _
        (fun j e => Option.noConfusion e)

/-- Witness for `fetch_none_halts_execs_fetched`: with no pending
instruction and an empty input poll, one iteration yields the tick and the
status line. -/
theorem fetch_none_halts_execs_fetched_witness :
    render.chip_loop_aux demoCore 50000000 1 [⟨none, 0⟩] 0 none none =
      [render.Ev.tickEv 0 0,
        render.Ev.statusEv "No more instructions to excute"] :=
  (fetch_none_halts_execs_fetched demoCore).1 50000000 0 ⟨none, 0⟩ [] 0 none rfl

/-- C1 (amended): `chip_loop` never branches on the result `exec`
reports.  Every `exec` event of a run — fault or success — is immediately
followed by a `fetch` event: after a fault the loop does not render a
status line or halt, it fetches the next instruction and, when that fetch
yields one, executes it on the following iteration.  The loop halts with a
status line only when `fetch` returns `None` (or on the quit keypress). -/
theorem exec_result_ignored {σ ι : Type} (C : Core σ ι) :
    (∀ (min_press fuel : Nat) (ins : List render.LoopIn) (ch : σ)
        (ni : Option ι) (oldk : Option Nat),
        render.execThenFetch
          (render.chip_loop_aux C min_press fuel ins ch ni oldk) = true) ∧
    ∀ (fuel : Nat) (ins : List render.LoopIn) (ch : σ),
      render.execThenFetch (render.chip_loop C fuel ins ch) = true := by
  have haux : ∀ (min_press fuel : Nat) (ins : List render.LoopIn) (ch : σ)
      (ni : Option ι) (oldk : Option Nat),
      render.execThenFetch
        (render.chip_loop_aux C min_press fuel ins ch ni oldk) = true := by
    intro min_press fuel
    induction fuel with
    | zero => intro ins ch ni oldk; rfl
    | succ fuel ih =>
      intro ins ch ni oldk
      simp only [render.chip_loop_aux]
      split
      · exact render.execThenFetch_kbd_map _
      · cases ni with
        | some instr =>
          simp only [List.cons_append]
          show render.execThenFetch
            (List.map render.Ev.kbd _ ++
              render.Ev.execEv instr _ :: render.Ev.fetchEv _ :: _) = true
          rw [render.execThenFetch_kbd_append]
          exact ih _ _ _ _
        | none =>
          simp only [List.cons_append]
          show render.execThenFetch
            (List.map render.Ev.kbd _ ++ [render.Ev.statusEv _]) = true
          rw [render.execThenFetch_kbd_append]
          rfl
  exact ⟨haux, fun fuel ins ch => haux _ fuel ins (C.fetch ch).2 (C.fetch ch).1 none⟩

/-- Witness for `exec_result_ignored` on a core whose every `exec` reports
a fault. -/
theorem exec_result_ignored_witness :
    render.execThenFetch
      (render.chip_loop faultingCore 2 [⟨none, 0⟩, ⟨none, 0⟩] 0) = true :=
  (exec_result_ignored faultingCore).2 2 [⟨none, 0⟩, ⟨none, 0⟩] 0

/-- C1 counterexample: on a core whose every `exec` reports an
`UnknownOpcode` fault while `fetch` keeps returning instructions, a
two-iteration run of `chip_loop` contains two faulting `exec` events and
no status line — after the first reported fault the loop neither displays
a status line nor halts, and calls `exec` again on the next iteration. -/
theorem exec_fault_not_acted_on_cex :
    List.countP render.isFaultExecEv
        (render.chip_loop faultingCore 2 [⟨none, 0⟩, ⟨none, 0⟩] 0) = 2 ∧
    List.countP render.isStatusEv
        (render.chip_loop faultingCore 2 [⟨none, 0⟩, ⟨none, 0⟩] 0) = 0 := by
  refine ⟨?_, ?_⟩ <;> decide
